import Mathlib

/-!
Shallow embedding of the RASPE motorized X-Y stage scanner core:
`Scan.py` (class `Scanner`: `move_axis`, `run_scan`) and
`Serial_Interface.py` (class `SerialConnection`: `send_command`,
`wait_for_ack`, `adc_get_value`, `read_line`).

Modelling conventions:
* The serial link is an oracle (`Env`): the outcome of the k-th
  `wait_for_ack` call, the k-th `adc_get_value` call and the k-th read of
  the `abort` flag are given by streams indexed by call counters threaded
  through the state.  Commands written to the link are recorded, in order,
  in a `trace` list (mirroring `send_command`).
* The measurement grid `data` (a numpy float array) is modelled as a total
  function `Int → Int → Option Int`; `none` models NaN ("no data"), and
  `grid y x` mirrors `data[yy, xx]` (row index first, as in the source).
  `gridH`/`gridW` are `data.shape[0]`/`data.shape[1]`.
* Python `math.floor(a / b)` on integers is exact floor division, modelled
  by `Int.fdiv` (the float rounding of CPython is exact at the magnitudes
  the program uses).
* `update_heatmap` (pure rendering) has no semantic effect and is omitted.
* For `read_line`, wall-clock time is modelled by integer ticks: the k-th
  `ser.readline()` call consumes `(reads k).fst + 1` ticks (a read always
  takes positive time) and yields the raw bytes `(reads k).snd`.
-/

namespace Raspe

/-- A measurement-grid cell: `none` models numpy NaN ("no data"),
`some v` a stored ADC reading.  `g y x` mirrors `data[y, x]`. -/
abbrev Grid := Int → Int → Option Int

/-- Oracle for one scanner session: outcomes of successive `wait_for_ack`
calls, successive ADC reads, successive reads of the `abort` flag (which the
UI may set at any moment), and whether the serial port is open. -/
structure Env where
  acks : Nat → Bool
  adcs : Nat → Option Int
  abortFlag : Nat → Bool
  serialOpen : Bool

/-- Scanner state threaded through the embedding: the dead-reckoned position
(`Scanner.xPos`/`Scanner.yPos`), the shared measurement grid (`Scanner.data`),
the list of commands sent over the link so far, and cursors into the oracle
streams. -/
structure ScanState where
  xPos : Int
  yPos : Int
  grid : Grid
  trace : List String
  ackIdx : Nat
  adcIdx : Nat
  abortIdx : Nat

/-- Scanner parameters (fields set in `Scanner.__init__`).
`gridH`/`gridW` are `data.shape[0]`/`data.shape[1]`. -/
structure Params where
  extension : Int
  centerX : Int
  centerY : Int
  speed : Int
  delayMs : Int
  stepsize : Int
  gridH : Nat
  gridW : Nat

/-- `SerialConnection.send_command`: writes the command (plus newline) to the
link; modelled as appending the command to the trace. -/
def send_command (st : ScanState) (cmd : String) : ScanState :=
  { st with trace := st.trace ++ [cmd] }

/-- `SerialConnection.wait_for_ack`: repeatedly reads lines until one contains
"OK" or the deadline passes; abstracted to the oracle outcome for the current
ack counter. -/
def wait_for_ack (env : Env) (st : ScanState) : Bool × ScanState :=
  (env.acks st.ackIdx, { st with ackIdx := st.ackIdx + 1 })

/-- `SerialConnection.adc_get_value`: sends "adc read", then waits for an
`ADC: <int>` line; returns the parsed value, or `none` on timeout /
unparsable data (the Python function falls off the end returning `None`). -/
def adc_get_value (env : Env) (st : ScanState) : Option Int × ScanState :=
  let st1 := send_command st "adc read"
  (env.adcs st1.adcIdx, { st1 with adcIdx := st1.adcIdx + 1 })

/-- `Scanner.move_axis(axis, steps)`: invalid axis fails without sending;
`steps == 0` succeeds without sending; otherwise sends `<axis><sign><|steps|>`
and waits for an acknowledgement; the stored position is updated by exactly
`steps` only when the acknowledgement arrived. -/
def move_axis (env : Env) (st : ScanState) (axis : String) (steps : Int) :
    Bool × ScanState :=
  if ¬(axis = "x" ∨ axis = "y") then (false, st)
  else if steps = 0 then (true, st)
  else
    let sign := if steps > 0 then "+" else "-"
    let r := wait_for_ack env (send_command st (axis ++ sign ++ toString steps.natAbs))
    if r.1 = false then (false, r.2)
    else if axis = "x" then (true, { r.2 with xPos := r.2.xPos + steps })
    else (true, { r.2 with yPos := r.2.yPos + steps })

/-- Position (y, x) lies inside the grid: `0 <= y < data.shape[0]` and
`0 <= x < data.shape[1]`. -/
abbrev in_bounds (H W : Nat) (y x : Int) : Prop :=
  0 ≤ y ∧ y < (H : Int) ∧ 0 ≤ x ∧ x < (W : Int)

/-- A single bounds-checked grid write, mirroring
`if (0 <= yy < shape[0]) and (0 <= xx < shape[1]): data[yy, xx] = v`:
out-of-bounds writes are silently dropped. -/
def write_cell (H W : Nat) (g : Grid) (y x : Int) (v : Option Int) : Grid :=
  if in_bounds H W y x then
    fun y1 x1 => if y1 = y ∧ x1 = x then v else g y1 x1
  else g

/-- Inner replication loop over `xx in range(x, x + n)` at row `y`:
bounds-checked writes of `v`. -/
def write_row (H W : Nat) (y : Int) (v : Int) : Nat → Int → Grid → Grid
  | 0, _, g => g
  | n + 1, x, g => write_row H W y v n (x + 1) (write_cell H W g y x (some v))

/-- Outer replication loop over `yy in range(y, y + rows)`, each row writing
`cols` cells starting at column `x0`. -/
def write_block_rows (H W : Nat) (x0 : Int) (v : Int) (cols : Nat) :
    Nat → Int → Grid → Grid
  | 0, _, g => g
  | n + 1, y, g => write_block_rows H W x0 v cols n (y + 1) (write_row H W y v cols x0 g)

/-- The replication block of `run_scan`'s success branch:
`for yy in range(yPos - h, yPos + h + 1): for xx in range(xPos - h, xPos + h + 1)`
with a bounds-checked write of the sampled value at each cell.  Each range has
`(2*h+1).toNat` elements (empty when `h < 0`, matching Python's empty range). -/
def write_block (H W : Nat) (g : Grid) (cy cx : Int) (h : Int) (v : Int) : Grid :=
  write_block_rows H W (cx - h) v (2 * h + 1).toNat (2 * h + 1).toNat (cy - h) g

/-- `half_step = math.floor(self.stepsize / 2)`. -/
def half_step (p : Params) : Int := Int.fdiv p.stepsize 2

/-- The per-axis point count of the raster loops:
`math.floor((2*extension)/stepsize) + 1`. -/
def n_steps (p : Params) : Int := Int.fdiv (2 * p.extension) p.stepsize + 1

/-- Outcome markers recording through which `return` statement `run_scan`
left the function. -/
inductive Outcome
  | invalidParam
  | notOpen
  | configFailed
  | homingFailed
  | adcOnFailed
  | aborted
  | scanMoveFailed
  | completed
deriving DecidableEq

/-- One iteration of `run_scan`'s inner (column) loop: check the abort flag
(returning immediately when set), request an ADC sample, write it into the
grid (replicated over the `half_step` block on success, the NaN sentinel at
the current cell on a miss), then do the fast-axis step.  `some o` in the
second component signals an early return from `run_scan`. -/
def scan_body (p : Params) (env : Env) (st : ScanState) :
    ScanState × Option Outcome :=
  if env.abortFlag st.abortIdx = true then
    ({ st with abortIdx := st.abortIdx + 1 }, some Outcome.aborted)
  else
    let a := adc_get_value env { st with abortIdx := st.abortIdx + 1 }
    let st2 :=
      match a.1 with
      | some v =>
          { a.2 with
            grid := write_block p.gridH p.gridW a.2.grid a.2.yPos a.2.xPos (half_step p) v }
      | none =>
          { a.2 with
            grid := write_cell p.gridH p.gridW a.2.grid a.2.yPos a.2.xPos none }
    let m := move_axis env st2 "x" p.stepsize
    if m.1 = true then (m.2, none) else (m.2, some Outcome.scanMoveFailed)

/-- The inner `for j in range(n_steps)` loop (the loop variable `j` is not
used by the body). -/
def scan_cols (p : Params) (env : Env) : Nat → ScanState → ScanState × Option Outcome
  | 0, st => (st, none)
  | n + 1, st =>
    let b := scan_body p env st
    match b.2 with
    | some o => (b.1, some o)
    | none => scan_cols p env n b.1

/-- One iteration of the outer (row) loop, row index `i`: run the columns,
then `move_axis('x', -stepsize*(j+1))` with `j+1 = n_steps` (the Python loop
variable leaks out of the inner loop), then the slow-axis step guarded by the
source's literal condition `i < math.floor((2*extension)/stepsize)+1`
(which is vacuously true for every row the loop produces). -/
def scan_row (p : Params) (env : Env) (i : Nat) (st : ScanState) :
    ScanState × Option Outcome :=
  let c := scan_cols p env (n_steps p).toNat st
  match c.2 with
  | some o => (c.1, some o)
  | none =>
    let mb := move_axis env c.1 "x" (-(p.stepsize * n_steps p))
    if mb.1 = false then (mb.2, some Outcome.scanMoveFailed)
    else
      if (i : Int) < n_steps p then
        let my := move_axis env mb.2 "y" p.stepsize
        if my.1 = false then (my.2, some Outcome.scanMoveFailed) else (my.2, none)
      else (mb.2, none)

/-- The outer `for i in range(n_steps)` loop: first argument is the number of
remaining rows, second the current row index `i`. -/
def scan_rows (p : Params) (env : Env) : Nat → Nat → ScanState → ScanState × Option Outcome
  | 0, _, st => (st, none)
  | n + 1, i, st =>
    let r := scan_row p env i st
    match r.2 with
    | some o => (r.1, some o)
    | none => scan_rows p env n (i + 1) r.1

/-- Lines 49-74 of `Scan.py`: configuration (`set speed`, `set tau`, each
acknowledged), homing (move to center, then to the first scan corner, four
`move_axis` calls each of which aborts the run on failure), then `adc on`
with its acknowledgement.  `some o` signals the early return taken. -/
def run_prep (p : Params) (env : Env) (st : ScanState) : ScanState × Option Outcome :=
  let r1 := wait_for_ack env (send_command st ("set speed=" ++ toString p.speed))
  if r1.1 = false then (r1.2, some Outcome.configFailed)
  else
    let r2 := wait_for_ack env (send_command r1.2 ("set tau=" ++ toString p.delayMs))
    if r2.1 = false then (r2.2, some Outcome.configFailed)
    else
      let dx := p.centerX - r2.2.xPos
      let dy := p.centerY - r2.2.yPos
      let m1 := move_axis env r2.2 "x" dx
      if m1.1 = false then (m1.2, some Outcome.homingFailed)
      else
        let m2 := move_axis env m1.2 "y" dy
        if m2.1 = false then (m2.2, some Outcome.homingFailed)
        else
          let m3 := move_axis env m2.2 "x" (-p.extension)
          if m3.1 = false then (m3.2, some Outcome.homingFailed)
          else
            let m4 := move_axis env m3.2 "y" (-p.extension)
            if m4.1 = false then (m4.2, some Outcome.homingFailed)
            else
              let r3 := wait_for_ack env (send_command m4.2 "adc on")
              if r3.1 = false then (r3.2, some Outcome.adcOnFailed)
              else (r3.2, none)

/-- `Scanner.run_scan`: parameter/connection validation, preparation
(configuration, homing, `adc on`), the raster loops, then `adc off` and the
two return-to-center moves whose results are ignored. -/
def run_scan (p : Params) (env : Env) (st : ScanState) : ScanState × Outcome :=
  if p.extension ≤ 0 then (st, Outcome.invalidParam)
  else if env.serialOpen = false then (st, Outcome.notOpen)
  else
    let pr := run_prep p env st
    match pr.2 with
    | some o => (pr.1, o)
    | none =>
      let sc := scan_rows p env (n_steps p).toNat 0 pr.1
      match sc.2 with
      | some o => (sc.1, o)
      | none =>
        let st1 := send_command sc.1 "adc off"
        let m1 := move_axis env st1 "x" (p.centerX - st1.xPos)
        let m2 := move_axis env m1.2 "y" (p.centerY - m1.2.yPos)
        (m2.2, Outcome.completed)

/-- Run a list of `move_axis` calls (axis, delta) in sequence. -/
def run_moves (env : Env) : ScanState → List (String × Int) → ScanState
  | st, [] => st
  | st, (a, d) :: rest => run_moves env (move_axis env st a d).2 rest

/-- The success bit returned by each call of a `move_axis` call sequence. -/
def move_results (env : Env) : ScanState → List (String × Int) → List Bool
  | _, [] => []
  | st, (a, d) :: rest =>
      (move_axis env st a d).1 :: move_results env (move_axis env st a d).2 rest

/-- Per-axis sum of the deltas of exactly the successful calls. -/
def acked_sum (axis : String) : List (String × Int) → List Bool → Int
  | [], _ => 0
  | _ :: _, [] => 0
  | (a, d) :: rest, ok :: oks =>
      (if ok = true ∧ a = axis then d else 0) + acked_sum axis rest oks

/-- Python `str.strip()`: drop leading and trailing whitespace.  Defined over
the character list so that it is kernel-computable. -/
def pyStrip (s : String) : String :=
  String.mk (((s.data.dropWhile Char.isWhitespace).reverse.dropWhile
    Char.isWhitespace).reverse)

/-- Timed byte-stream oracle for `SerialConnection.read_line`: the k-th
`ser.readline()` call takes `(reads k).fst + 1` time ticks and returns the
raw bytes `(reads k).snd` (empty string = nothing available yet). -/
structure LineEnv where
  reads : Nat → Nat × String

/-- Python `timeout or self.timeout`: a timeout of `None` or `0` falls back
to the connection's configured default timeout. -/
def effective_timeout (timeout : Option Int) (selfTimeout : Int) : Int :=
  match timeout with
  | none => selfTimeout
  | some t => if t = 0 then selfTimeout else t

/-- The `while time.time() < deadline` loop of `read_line`: at read cursor
`k` and current time `t`, perform a read if the deadline has not passed;
blank (empty or whitespace-only) lines are skipped, the first non-blank line
is returned stripped.  `fuel` is an upper bound on the number of loop
iterations: every read consumes at least one time tick, so `(deadline -
t).toNat` iterations always suffice, and when `fuel` reaches 0 under that
invariant the deadline has necessarily passed (the `none` returned at fuel 0
coincides with the loop's normal deadline exit). -/
def readLineLoop (e : LineEnv) (deadline : Int) : Nat → Nat → Int → Option String
  | 0, _, _ => none
  | fuel + 1, k, t =>
    if t < deadline then
      if pyStrip (e.reads k).2 = "" then
        readLineLoop e deadline fuel (k + 1) (t + ((e.reads k).1 + 1))
      else some (pyStrip (e.reads k).2)
    else none

/-- `SerialConnection.read_line(timeout)` entered at wall-clock time
`entry`: the deadline is computed once, from the effective timeout. -/
def read_line (e : LineEnv) (timeout : Option Int) (selfTimeout : Int)
    (entry : Int) : Option String :=
  readLineLoop e (entry + effective_timeout timeout selfTimeout)
    (effective_timeout timeout selfTimeout).toNat 0 entry

/-- Wall-clock time at which the `n`-th `ser.readline()` call begins (the
first read begins at `entry`). -/
def read_start (e : LineEnv) (entry : Int) : Nat → Int
  | 0 => entry
  | n + 1 => read_start e entry n + ((e.reads n).1 + 1)

/-- Wall-clock time at which the `k`-th `ser.readline()` call completes,
i.e. at which its line arrives. -/
def arrival_time (e : LineEnv) (entry : Int) (k : Nat) : Int :=
  read_start e entry (k + 1)

/-- Refinement rendering of claim C8's wording (not of the code): return the
stripped first non-empty line that ARRIVES (read completes) before the
deadline; `none` if the deadline passes first.  `fuel` bounds the search. -/
def spec_read_line (e : LineEnv) (deadline entry : Int) : Nat → Nat → Option String
  | 0, _ => none
  | fuel + 1, k =>
    if arrival_time e entry k < deadline then
      let s := pyStrip (e.reads k).2
      if s = "" then spec_read_line e deadline entry fuel (k + 1) else some s
    else none

/-- Fixture: an environment whose acknowledgements all succeed, whose ADC
reads all return 7, whose abort flag is never set, with the port open. -/
def env_ok : Env :=
  { acks := fun _ => true
    adcs := fun _ => some 7
    abortFlag := fun _ => false
    serialOpen := true }

/-- Fixture: initial scanner state at position (5, 5) with an all-NaN grid. -/
def st_55 : ScanState :=
  { xPos := 5, yPos := 5, grid := fun _ _ => none
    trace := [], ackIdx := 0, adcIdx := 0, abortIdx := 0 }

/-- Fixture: `extension=1, center=(5,5), stepsize=1` on a 200 x 200 grid. -/
def p_ext1 : Params :=
  { extension := 1, centerX := 5, centerY := 5, speed := 1000
    delayMs := 100, stepsize := 1, gridH := 200, gridW := 200 }

/-- Fixture: same scan with `stepsize=2` (even stepsize). -/
def p_step2 : Params :=
  { extension := 1, centerX := 5, centerY := 5, speed := 1000
    delayMs := 100, stepsize := 2, gridH := 200, gridW := 200 }

/-- Fixture: same scan with `stepsize=3` (odd stepsize greater than 1). -/
def p_step3 : Params :=
  { extension := 1, centerX := 5, centerY := 5, speed := 1000
    delayMs := 100, stepsize := 3, gridH := 200, gridW := 200 }

/-- Fixture: like `env_ok` but the abort flag is set from the start. -/
def env_abort : Env :=
  { env_ok with abortFlag := fun _ => true }

/-- Fixture: like `env_ok` but every acknowledgement fails. -/
def env_nack : Env :=
  { env_ok with acks := fun _ => false }

/-- Fixture: a timed stream: two blank reads (durations 3 and 4 ticks) then
a read yielding "OK" taking 5 ticks, so the "OK" read starts at tick 7 and
its line arrives at tick 12. -/
def line_env0 : LineEnv :=
  { reads := fun k =>
      match k with
      | 0 => (2, "")
      | 1 => (3, "")
      | 2 => (4, "OK")
      | _ => (0, "") }

/-! ## Helper lemmas -/

lemma move_axis_xPos (env : Env) (st : ScanState) (a : String) (d : Int) :
    ((move_axis env st a d).2).xPos
      = st.xPos + (if (move_axis env st a d).1 = true ∧ a = "x" then d else 0) := by
  unfold move_axis
  split_ifs with h1 h2 <;>
    simp_all [wait_for_ack, send_command] <;> split_ifs <;> simp_all

lemma move_axis_yPos (env : Env) (st : ScanState) (a : String) (d : Int) :
    ((move_axis env st a d).2).yPos
      = st.yPos + (if (move_axis env st a d).1 = true ∧ a = "y" then d else 0) := by
  unfold move_axis
  split_ifs with h1 h2 <;>
    simp_all [wait_for_ack, send_command] <;> split_ifs <;> simp_all

lemma write_cell_apply (H W : Nat) (g : Grid) (y x : Int) (v : Option Int)
    (y1 x1 : Int) :
    write_cell H W g y x v y1 x1
      = if in_bounds H W y x ∧ y1 = y ∧ x1 = x then v else g y1 x1 := by
  unfold write_cell
  split_ifs with h1 h2 h3 <;> simp_all

lemma write_row_apply (H W : Nat) (y : Int) (v : Int) (n : Nat) (x0 : Int)
    (g : Grid) (y1 x1 : Int) :
    write_row H W y v n x0 g y1 x1
      = if in_bounds H W y1 x1 ∧ y1 = y ∧ x0 ≤ x1 ∧ x1 < x0 + n
        then some v else g y1 x1 := by
  induction n generalizing x0 g with
  | zero => simp only [write_row]; split_ifs with h <;> [omega; rfl]
  | succ n ih =>
    simp only [write_row]
    rw [ih]
    rw [write_cell_apply]
    split_ifs <;> first | rfl | omega

lemma write_block_rows_apply (H W : Nat) (x0 : Int) (v : Int) (cols : Nat)
    (rows : Nat) (y0 : Int) (g : Grid) (y1 x1 : Int) :
    write_block_rows H W x0 v cols rows y0 g y1 x1
      = if in_bounds H W y1 x1 ∧ y0 ≤ y1 ∧ y1 < y0 + rows ∧ x0 ≤ x1 ∧ x1 < x0 + cols
        then some v else g y1 x1 := by
  induction rows generalizing y0 g with
  | zero => simp only [write_block_rows]; split_ifs with h <;> [omega; rfl]
  | succ n ih =>
    simp only [write_block_rows]
    rw [ih]
    rw [write_row_apply]
    split_ifs <;> first | rfl | omega

lemma write_block_apply (H W : Nat) (g : Grid) (cy cx : Int) (h : Int)
    (v : Int) (hh : 0 ≤ h) (y1 x1 : Int) :
    write_block H W g cy cx h v y1 x1
      = if in_bounds H W y1 x1 ∧
           cy - h ≤ y1 ∧ y1 ≤ cy + h ∧ cx - h ≤ x1 ∧ x1 ≤ cx + h
        then some v else g y1 x1 := by
  unfold write_block
  rw [write_block_rows_apply]
  have hcount : ((2 * h + 1).toNat : Int) = 2 * h + 1 := by omega
  split_ifs <;> first | rfl | omega

/-- When `h < 0` both Python ranges of the replication block are empty:
no cell is touched at all. -/
lemma write_block_neg (H W : Nat) (g : Grid) (cy cx : Int) (h : Int)
    (v : Int) (hh : h < 0) : write_block H W g cy cx h v = g := by
  unfold write_block
  have : (2 * h + 1).toNat = 0 := by omega
  rw [this]
  rfl

lemma move_axis_grid (env : Env) (st : ScanState) (a : String) (d : Int) :
    ((move_axis env st a d).2).grid = st.grid := by
  unfold move_axis
  split_ifs <;> simp [wait_for_ack, send_command] <;> split_ifs <;> simp

lemma move_axis_adcIdx (env : Env) (st : ScanState) (a : String) (d : Int) :
    ((move_axis env st a d).2).adcIdx = st.adcIdx := by
  unfold move_axis
  split_ifs <;> simp [wait_for_ack, send_command] <;> split_ifs <;> simp

lemma move_axis_abortIdx (env : Env) (st : ScanState) (a : String) (d : Int) :
    ((move_axis env st a d).2).abortIdx = st.abortIdx := by
  unfold move_axis
  split_ifs <;> simp [wait_for_ack, send_command] <;> split_ifs <;> simp

lemma fst_ite_pair {A B : Type} (c : Prop) [Decidable c] (s : A) (o1 o2 : B) :
    (if c then (s, o1) else (s, o2)).1 = s := by
  split_ifs <;> rfl

lemma move_axis_x_ok (env : Env) (st : ScanState) (d : Int)
    (hd : 0 < d) (hack : env.acks st.ackIdx = true) :
    move_axis env st "x" d
      = (true, { st with trace := st.trace ++ ["x+" ++ toString d.natAbs],
                         ackIdx := st.ackIdx + 1,
                         xPos := st.xPos + d }) := by
  unfold move_axis
  rw [if_neg (by simp), if_neg (by omega), if_pos hd]
  simp [wait_for_ack, send_command, hack]

lemma scan_body_miss (p : Params) (env : Env) (st : ScanState)
    (hab : env.abortFlag st.abortIdx = false)
    (hmiss : env.adcs st.adcIdx = none) :
    scan_body p env st
      = (let stW := { st with abortIdx := st.abortIdx + 1,
                              trace := st.trace ++ ["adc read"],
                              adcIdx := st.adcIdx + 1,
                              grid := write_cell p.gridH p.gridW st.grid st.yPos st.xPos none }
         let m := move_axis env stW "x" p.stepsize
         if m.1 = true then (m.2, none) else (m.2, some Outcome.scanMoveFailed)) := by
  unfold scan_body adc_get_value send_command
  simp only [hab, hmiss]
  rfl

lemma scan_body_hit (p : Params) (env : Env) (st : ScanState) (v : Int)
    (hab : env.abortFlag st.abortIdx = false)
    (hval : env.adcs st.adcIdx = some v) :
    scan_body p env st
      = (let stW := { st with abortIdx := st.abortIdx + 1,
                              trace := st.trace ++ ["adc read"],
                              adcIdx := st.adcIdx + 1,
                              grid := write_block p.gridH p.gridW st.grid st.yPos st.xPos
                                        (half_step p) v }
         let m := move_axis env stW "x" p.stepsize
         if m.1 = true then (m.2, none) else (m.2, some Outcome.scanMoveFailed)) := by
  unfold scan_body adc_get_value send_command
  simp only [hab, hval]
  rfl

/-! ## Claim theorems -/

/-- C4: at a scan point where the ADC request returns no value, `run_scan`'s
loop body writes the NaN sentinel into the grid cell at the current in-bounds
position (touching no other cell) and continues with the next fast-axis step
(`(scan_body ...).2 = none` means no early return), rather than ending the
run. -/
theorem C4_sample_miss (p : Params) (env : Env) (st : ScanState)
    (hab : env.abortFlag st.abortIdx = false)
    (hmiss : env.adcs st.adcIdx = none)
    (hack : env.acks st.ackIdx = true)
    (hstep : 0 < p.stepsize)
    (hin : in_bounds p.gridH p.gridW st.yPos st.xPos) :
    (scan_body p env st).2 = none ∧
    (scan_body p env st).1.grid st.yPos st.xPos = none ∧
    (∀ y x : Int, ¬(y = st.yPos ∧ x = st.xPos) →
        (scan_body p env st).1.grid y x = st.grid y x) ∧
    (scan_body p env st).1.trace
        = st.trace ++ ["adc read", "x+" ++ toString p.stepsize.natAbs] ∧
    (scan_body p env st).1.xPos = st.xPos + p.stepsize := by
  rw [scan_body_miss p env st hab hmiss]
  simp only []
  rw [move_axis_x_ok env _ p.stepsize hstep (by simpa using hack)]
  refine ⟨by simp, ?_, ?_, by simp, by simp⟩
  · simp [write_cell_apply, hin]
  · intro y x hne
    simp [write_cell_apply, hne]

/-- Witness for C4 at a concrete input: a miss at (5,5) on a 200 x 200 grid. -/
theorem C4_sample_miss_witness :
    (scan_body p_ext1
        { env_ok with adcs := fun _ => none } st_55).2 = none ∧
    (scan_body p_ext1
        { env_ok with adcs := fun _ => none } st_55).1.grid 5 5 = none := by
  have h := C4_sample_miss p_ext1 { env_ok with adcs := fun _ => none } st_55
    rfl rfl rfl (by decide) (by constructor <;> [decide; constructor <;> [decide; constructor <;> decide]])
  exact ⟨h.1, h.2.1⟩

/-- C5: a grid write aimed at a position outside `[0, gridH) x [0, gridW)` is
silently dropped: the single-cell write returns the grid unchanged, the
replicated block write never changes an out-of-bounds cell, and a loop-body
iteration whose current position is out of bounds leaves the whole grid
unchanged and continues the scan (no exception exists in the model: all
functions are total). -/
theorem C5_out_of_bounds_skip :
    (∀ (H W : Nat) (g : Grid) (y x : Int) (v : Option Int),
        ¬ in_bounds H W y x → write_cell H W g y x v = g) ∧
    (∀ (H W : Nat) (g : Grid) (cy cx h v y x : Int),
        ¬ in_bounds H W y x → write_block H W g cy cx h v y x = g y x) ∧
    (∀ (p : Params) (env : Env) (st : ScanState),
        env.abortFlag st.abortIdx = false →
        env.adcs st.adcIdx = none →
        env.acks st.ackIdx = true →
        0 < p.stepsize →
        ¬ in_bounds p.gridH p.gridW st.yPos st.xPos →
        (scan_body p env st).1.grid = st.grid ∧ (scan_body p env st).2 = none) := by
  refine ⟨?_, ?_, ?_⟩
  · intro H W g y x v h
    unfold write_cell
    rw [if_neg h]
  · intro H W g cy cx h v y x hnb
    rcases le_or_lt 0 h with hh | hh
    · rw [write_block_apply H W g cy cx h v hh]
      simp [hnb]
    · rw [write_block_neg H W g cy cx h v hh]
  · intro p env st hab hmiss hack hstep hnb
    rw [scan_body_miss p env st hab hmiss]
    simp only []
    rw [move_axis_x_ok env _ p.stepsize hstep (by simpa using hack)]
    constructor
    · have hcw : write_cell p.gridH p.gridW st.grid st.yPos st.xPos none = st.grid := by
        unfold write_cell
        rw [if_neg hnb]
      simp [hcw]
    · simp

/-- Witness for C5 at a concrete input: a write aimed at row -1 is dropped. -/
theorem C5_out_of_bounds_skip_witness :
    write_cell 200 200 (fun _ _ => (none : Option Int)) (-1) 0 (some 5)
      = fun _ _ => none :=
  C5_out_of_bounds_skip.1 200 200 (fun _ _ => none) (-1) 0 (some 5) (by decide)

/-- C7 counterexample: with `stepsize = 2` the replication block written for
a successful sample at (5,5) contains the cells (4,4) and (6,6), which no
axis-aligned square of width `stepsize = 2` can contain simultaneously; the
block actually written is 3 cells wide (`2*floor(stepsize/2)+1`), so the
claim's "stepsize-wide" neighborhood is false as stated for even stepsize. -/
theorem C7_replication_cex :
    (scan_body p_step2 env_ok st_55).1.grid 4 4 = some 7 ∧
    (scan_body p_step2 env_ok st_55).1.grid 6 6 = some 7 ∧
    ¬ ∃ a b : Int, ∀ y x : Int,
        (scan_body p_step2 env_ok st_55).1.grid y x ≠ none →
          a ≤ y ∧ y < a + 2 ∧ b ≤ x ∧ x < b + 2 := by
  have e1 : (scan_body p_step2 env_ok st_55).1.grid 4 4 = some 7 := by rfl
  have e2 : (scan_body p_step2 env_ok st_55).1.grid 6 6 = some 7 := by rfl
  refine ⟨e1, e2, ?_⟩
  rintro ⟨a, b, hfit⟩
  have h1 := hfit 4 4 (by rw [e1]; exact Option.some_ne_none 7)
  have h2 := hfit 6 6 (by rw [e2]; exact Option.some_ne_none 7)
  omega

/-- C7 amended: for `stepsize > 1`, a successful sample `v` at the current
position is replicated into the square block of cells within Chebyshev
distance `half_step = floor(stepsize/2)` of the position — a block of width
`2*floor(stepsize/2)+1` (equal to `stepsize` for odd stepsize, `stepsize+1`
for even stepsize) — clipped to the grid bounds; all other cells are
untouched. -/
theorem C7_block_replication (p : Params) (env : Env) (st : ScanState) (v : Int)
    (hab : env.abortFlag st.abortIdx = false)
    (hval : env.adcs st.adcIdx = some v)
    (hstep : 1 < p.stepsize) (y x : Int) :
    (scan_body p env st).1.grid y x
      = if in_bounds p.gridH p.gridW y x ∧
           st.yPos - half_step p ≤ y ∧ y ≤ st.yPos + half_step p ∧
           st.xPos - half_step p ≤ x ∧ x ≤ st.xPos + half_step p
        then some v else st.grid y x := by
  have hh : 0 ≤ half_step p := by
    have h0 : (0 : Int) ≤ p.stepsize := by omega
    exact Int.fdiv_nonneg h0 (by omega)
  rw [scan_body_hit p env st v hab hval]
  simp only [fst_ite_pair, move_axis_grid]
  rw [write_block_apply p.gridH p.gridW st.grid st.yPos st.xPos (half_step p) v hh y x]

/-- Witness for C7 (amended) at a concrete input: `stepsize = 3`, sample 7 at
(5,5); the cell (6,6) one step away receives the value. -/
theorem C7_block_replication_witness :
    (scan_body p_step3 env_ok st_55).1.grid 6 6 = some 7 := by
  have h := C7_block_replication p_step3 env_ok st_55 7 rfl rfl (by decide) 6 6
  rw [h]
  rfl

lemma scan_body_abort (p : Params) (env : Env) (st : ScanState)
    (h : env.abortFlag st.abortIdx = true) :
    scan_body p env st
      = ({ st with abortIdx := st.abortIdx + 1 }, some Outcome.aborted) := by
  unfold scan_body
  rw [if_pos h]

lemma scan_cols_abort (p : Params) (env : Env) (n : Nat) (st : ScanState)
    (hn : 0 < n) (h : env.abortFlag st.abortIdx = true) :
    scan_cols p env n st
      = ({ st with abortIdx := st.abortIdx + 1 }, some Outcome.aborted) := by
  cases n with
  | zero => omega
  | succ n =>
    simp only [scan_cols]
    rw [scan_body_abort p env st h]

lemma scan_rows_abort (p : Params) (env : Env) (n i : Nat) (st : ScanState)
    (hn : 0 < n) (hN : 0 < (n_steps p).toNat)
    (h : env.abortFlag st.abortIdx = true) :
    scan_rows p env n i st
      = ({ st with abortIdx := st.abortIdx + 1 }, some Outcome.aborted) := by
  cases n with
  | zero => omega
  | succ n =>
    simp only [scan_rows, scan_row]
    rw [scan_cols_abort p env _ st hN h]

lemma move_axis_x_fst (env : Env) (st : ScanState) (d : Int)
    (hAll : ∀ m, env.acks m = true) : (move_axis env st "x" d).1 = true := by
  unfold move_axis
  simp [wait_for_ack, send_command, hAll]
  split_ifs <;> simp

lemma move_axis_y_fst (env : Env) (st : ScanState) (d : Int)
    (hAll : ∀ m, env.acks m = true) : (move_axis env st "y" d).1 = true := by
  unfold move_axis
  simp [wait_for_ack, send_command, hAll]
  split_ifs <;> simp

lemma run_prep_allack (p : Params) (env : Env) (st : ScanState)
    (hAll : ∀ m, env.acks m = true) :
    (run_prep p env st).2 = none ∧
    ((run_prep p env st).1).grid = st.grid ∧
    ((run_prep p env st).1).adcIdx = st.adcIdx ∧
    ((run_prep p env st).1).abortIdx = st.abortIdx := by
  unfold run_prep
  simp [wait_for_ack, send_command, hAll, move_axis_x_fst, move_axis_y_fst,
    move_axis_grid, move_axis_adcIdx, move_axis_abortIdx]

/-- C6: when the abort flag is observed at the top of a column iteration —
any column iteration, in particular mid-row — the run returns at once:
(1) the column-loop body itself (`scan_body`, which performs the abort check
first) returns immediately with only the flag-read counter advanced, so no
sample is requested, no fast-axis move is issued and no grid cell is written
after the observation; (2) the column loop (`scan_cols`) with any number of
columns still to do behaves identically from any state, covering every
mid-row position; (3) the row loop (`scan_rows`) likewise; and (4) a
`run_scan` whose abort flag is set throughout (with working
acknowledgements) ends with outcome `aborted`, an unchanged grid, and no ADC
request ever issued. -/
theorem C6_abort :
    (∀ (p : Params) (env : Env) (st : ScanState),
        env.abortFlag st.abortIdx = true →
        scan_body p env st
          = ({ st with abortIdx := st.abortIdx + 1 }, some Outcome.aborted)) ∧
    (∀ (p : Params) (env : Env) (n : Nat) (st : ScanState),
        0 < n →
        env.abortFlag st.abortIdx = true →
        scan_cols p env n st
          = ({ st with abortIdx := st.abortIdx + 1 }, some Outcome.aborted)) ∧
    (∀ (p : Params) (env : Env) (n i : Nat) (st : ScanState),
        0 < n → 0 < (n_steps p).toNat →
        env.abortFlag st.abortIdx = true →
        scan_rows p env n i st
          = ({ st with abortIdx := st.abortIdx + 1 }, some Outcome.aborted)) ∧
    (∀ (p : Params) (env : Env) (st : ScanState),
        0 < p.extension → 1 ≤ p.stepsize →
        env.serialOpen = true →
        (∀ m, env.acks m = true) →
        (∀ m, env.abortFlag m = true) →
        (run_scan p env st).2 = Outcome.aborted ∧
        (run_scan p env st).1.grid = st.grid ∧
        (run_scan p env st).1.adcIdx = st.adcIdx) := by
  refine ⟨?_, ?_, ?_, ?_⟩
  · intro p env st h
    exact scan_body_abort p env st h
  · intro p env n st hn h
    exact scan_cols_abort p env n st hn h
  · intro p env n i st hn hN h
    exact scan_rows_abort p env n i st hn hN h
  · intro p env st hext hstep hopen hAll hFlag
    obtain ⟨hpn, hpg, hpa, hpab⟩ := run_prep_allack p env st hAll
    have hN : 0 < (n_steps p).toNat := by
      unfold n_steps
      have hnn : 0 ≤ Int.fdiv (2 * p.extension) p.stepsize :=
        Int.fdiv_nonneg (by omega) (by omega)
      omega
    unfold run_scan
    rw [if_neg (by omega : ¬ p.extension ≤ 0),
        if_neg (by simp [hopen] : ¬ env.serialOpen = false)]
    rcases hpr : run_prep p env st with ⟨st1, o1⟩
    rw [hpr] at hpn hpg hpa hpab
    simp only [] at hpn hpg hpa hpab
    subst hpn
    simp only []
    rw [scan_rows_abort p env _ 0 st1 hN hN (hFlag st1.abortIdx)]
    exact ⟨rfl, hpg, hpa⟩

/-- Witness for C6 at a concrete input: the flag is observed mid-row (two
columns of the row still to do, three earlier checks already consumed) and
the column loop returns at once with only the flag-read counter advanced. -/
theorem C6_abort_witness :
    scan_cols p_ext1 env_abort 2 { st_55 with abortIdx := 3 }
      = ({ st_55 with abortIdx := 4 }, some Outcome.aborted) :=
  C6_abort.2.1 p_ext1 env_abort 2 { st_55 with abortIdx := 3 } (by decide) rfl

/-- C3: with a valid extension and an open port, `run_scan` sends
`set speed=<speed>` first and waits for its acknowledgement; on failure it
returns at once having sent nothing else, with position and grid exactly as
before.  If the speed acknowledgement succeeds it sends `set tau=<delayMs>`
and waits again; on failure it likewise returns with position and grid
untouched (only the trace and the ack counter record the attempt). -/
theorem C3_config_fail_fast (p : Params) (env : Env) (st : ScanState)
    (hext : 0 < p.extension) (hopen : env.serialOpen = true) :
    (env.acks st.ackIdx = false →
        run_scan p env st
          = ({ st with trace := st.trace ++ ["set speed=" ++ toString p.speed],
                       ackIdx := st.ackIdx + 1 }, Outcome.configFailed)) ∧
    (env.acks st.ackIdx = true → env.acks (st.ackIdx + 1) = false →
        run_scan p env st
          = ({ st with trace := st.trace ++ ["set speed=" ++ toString p.speed,
                                             "set tau=" ++ toString p.delayMs],
                       ackIdx := st.ackIdx + 2 }, Outcome.configFailed)) := by
  constructor
  · intro h1
    unfold run_scan run_prep
    rw [if_neg (by omega : ¬ p.extension ≤ 0),
        if_neg (by simp [hopen] : ¬ env.serialOpen = false)]
    simp [wait_for_ack, send_command, h1]
  · intro h1 h2
    unfold run_scan run_prep
    rw [if_neg (by omega : ¬ p.extension ≤ 0),
        if_neg (by simp [hopen] : ¬ env.serialOpen = false)]
    simp [wait_for_ack, send_command, h1, h2]

/-- Witness for C3 at a concrete input: the first acknowledgement fails. -/
theorem C3_config_fail_fast_witness :
    run_scan p_ext1 env_nack st_55
      = ({ st_55 with trace := st_55.trace ++ ["set speed=" ++ toString p_ext1.speed],
                      ackIdx := st_55.ackIdx + 1 }, Outcome.configFailed) :=
  (C3_config_fail_fast p_ext1 env_nack st_55 (by decide) rfl).1 rfl

/-- C2 (code bug, concrete run): `extension = 1`, `stepsize = 1`, all
acknowledgements and ADC reads succeeding.  The run requests exactly
`(floor(2*1/1)+1)^2 = 9` samples, but issues three `y+1` slow-axis steps —
one after every row, including the last — because the guard
`if i < floor((2*extension)/stepsize)+1` in the source is vacuously true.
The claim (and the spec) require the slow-axis step to be skipped on the
last row, i.e. only two `y+1` commands. -/
theorem C2_last_row_y_step :
    ((run_scan p_ext1 env_ok st_55).1.trace.count "adc read" = 9) ∧
    ((run_scan p_ext1 env_ok st_55).1.trace.count "y+1" = 3) := by
  constructor <;> rfl

lemma ne_adc_off_of_head (s : String) (h : s.data.head? ≠ some 'a') :
    s ≠ "adc off" := by
  intro he
  subst he
  exact h rfl

lemma x_move_ne_adc_off (r : String) : "x" ++ r ≠ "adc off" := by
  apply ne_adc_off_of_head
  rw [String.data_append]
  intro h
  simp at h

lemma y_move_ne_adc_off (r : String) : "y" ++ r ≠ "adc off" := by
  apply ne_adc_off_of_head
  rw [String.data_append]
  intro h
  simp at h

lemma speed_ne_adc_off (r : String) : "set speed=" ++ r ≠ "adc off" := by
  apply ne_adc_off_of_head
  rw [String.data_append]
  intro h
  simp at h

lemma tau_ne_adc_off (r : String) : "set tau=" ++ r ≠ "adc off" := by
  apply ne_adc_off_of_head
  rw [String.data_append]
  intro h
  simp at h

lemma move_axis_trace (env : Env) (st : ScanState) (a : String) (d : Int) :
    ∃ t, ((move_axis env st a d).2).trace = st.trace ++ t ∧
      ∀ c ∈ t, ∃ r, c = a ++ r := by
  by_cases h1 : ¬(a = "x" ∨ a = "y")
  · unfold move_axis
    rw [if_pos h1]
    exact ⟨[], by simp, by simp⟩
  · by_cases h2 : d = 0
    · unfold move_axis
      rw [if_neg h1, if_pos h2]
      exact ⟨[], by simp, by simp⟩
    · unfold move_axis
      rw [if_neg h1, if_neg h2]
      simp only [wait_for_ack, send_command]
      refine ⟨[a ++ ((if d > 0 then "+" else "-") ++ toString d.natAbs)], ?_, ?_⟩
      · rw [← String.append_assoc]
        split_ifs <;> rfl
      · intro c hc
        rw [List.mem_singleton] at hc
        exact ⟨_, hc⟩

lemma move_axis_trace_mem (env : Env) (st : ScanState) (a : String) (d : Int)
    (c : String) (hc : c ∈ ((move_axis env st a d).2).trace) :
    c ∈ st.trace ∨ ∃ r, c = a ++ r := by
  obtain ⟨t, ht, hs⟩ := move_axis_trace env st a d
  rw [ht] at hc
  rcases List.mem_append.mp hc with hc | hc
  · exact Or.inl hc
  · exact Or.inr (hs c hc)

lemma scan_body_trace (p : Params) (env : Env) (st : ScanState) :
    ∃ t, ((scan_body p env st).1).trace = st.trace ++ t ∧
      ∀ c ∈ t, c = "adc read" ∨ ∃ r, c = "x" ++ r := by
  by_cases h : env.abortFlag st.abortIdx = true
  · rw [scan_body_abort p env st h]
    exact ⟨[], by simp, by simp⟩
  · replace h : env.abortFlag st.abortIdx = false := by simpa using h
    rcases hv : env.adcs st.adcIdx with _ | v
    · rw [scan_body_miss p env st h hv]
      simp only []
      obtain ⟨t, ht, hs⟩ := move_axis_trace env
        { st with abortIdx := st.abortIdx + 1,
                  trace := st.trace ++ ["adc read"],
                  adcIdx := st.adcIdx + 1,
                  grid := write_cell p.gridH p.gridW st.grid st.yPos st.xPos none }
        "x" p.stepsize
      refine ⟨"adc read" :: t, ?_, ?_⟩
      · rw [fst_ite_pair, ht]
        simp
      · intro c hc
        rcases List.mem_cons.mp hc with rfl | hc
        · exact Or.inl rfl
        · exact Or.inr (hs c hc)
    · rw [scan_body_hit p env st v h hv]
      simp only []
      obtain ⟨t, ht, hs⟩ := move_axis_trace env
        { st with abortIdx := st.abortIdx + 1,
                  trace := st.trace ++ ["adc read"],
                  adcIdx := st.adcIdx + 1,
                  grid := write_block p.gridH p.gridW st.grid st.yPos st.xPos
                            (half_step p) v }
        "x" p.stepsize
      refine ⟨"adc read" :: t, ?_, ?_⟩
      · rw [fst_ite_pair, ht]
        simp
      · intro c hc
        rcases List.mem_cons.mp hc with rfl | hc
        · exact Or.inl rfl
        · exact Or.inr (hs c hc)

lemma scan_cols_trace (p : Params) (env : Env) :
    ∀ (n : Nat) (st : ScanState),
      ∃ t, ((scan_cols p env n st).1).trace = st.trace ++ t ∧
        ∀ c ∈ t, c = "adc read" ∨ ∃ r, c = "x" ++ r := by
  intro n
  induction n with
  | zero => intro st; exact ⟨[], by simp [scan_cols], by simp⟩
  | succ n ih =>
    intro st
    obtain ⟨t1, ht1, hs1⟩ := scan_body_trace p env st
    rcases hb : scan_body p env st with ⟨st1, o⟩
    rw [hb] at ht1
    simp only [] at ht1
    cases o with
    | some o =>
      refine ⟨t1, ?_, hs1⟩
      simp only [scan_cols]
      rw [hb]
      exact ht1
    | none =>
      obtain ⟨t2, ht2, hs2⟩ := ih st1
      refine ⟨t1 ++ t2, ?_, ?_⟩
      · simp only [scan_cols]
        rw [hb]
        simp only []
        rw [ht2, ht1, List.append_assoc]
      · intro c hc
        rcases List.mem_append.mp hc with hc | hc
        · exact hs1 c hc
        · exact hs2 c hc

lemma scan_row_trace (p : Params) (env : Env) (i : Nat) (st : ScanState) :
    ∃ t, ((scan_row p env i st).1).trace = st.trace ++ t ∧
      ∀ c ∈ t, c = "adc read" ∨ (∃ r, c = "x" ++ r) ∨ ∃ r, c = "y" ++ r := by
  obtain ⟨t1, ht1, hs1⟩ := scan_cols_trace p env (n_steps p).toNat st
  rcases hc : scan_cols p env (n_steps p).toNat st with ⟨st1, o⟩
  rw [hc] at ht1
  simp only [] at ht1
  unfold scan_row
  rw [hc]
  cases o with
  | some o =>
    refine ⟨t1, ht1, ?_⟩
    intro c hmem
    rcases hs1 c hmem with h | h
    · exact Or.inl h
    · exact Or.inr (Or.inl h)
  | none =>
    simp only []
    obtain ⟨t2, ht2, hs2⟩ := move_axis_trace env st1 "x" (-(p.stepsize * n_steps p))
    rcases hmb : move_axis env st1 "x" (-(p.stepsize * n_steps p)) with ⟨ok2, st2⟩
    rw [hmb] at ht2
    simp only [] at ht2
    obtain ⟨t3, ht3, hs3⟩ := move_axis_trace env st2 "y" p.stepsize
    have hmem2 : ∀ c ∈ t1 ++ t2,
        c = "adc read" ∨ (∃ r, c = "x" ++ r) ∨ ∃ r, c = "y" ++ r := by
      intro c hmem
      rcases List.mem_append.mp hmem with h | h
      · rcases hs1 c h with h | h
        · exact Or.inl h
        · exact Or.inr (Or.inl h)
      · exact Or.inr (Or.inl (hs2 c h))
    have hmem3 : ∀ c ∈ t1 ++ t2 ++ t3,
        c = "adc read" ∨ (∃ r, c = "x" ++ r) ∨ ∃ r, c = "y" ++ r := by
      intro c hmem
      rcases List.mem_append.mp hmem with h | h
      · exact hmem2 c h
      · exact Or.inr (Or.inr (hs3 c h))
    have heq2 : st2.trace = st.trace ++ (t1 ++ t2) := by
      rw [ht2, ht1, List.append_assoc]
    have heq3 : (move_axis env st2 "y" p.stepsize).2.trace
        = st.trace ++ (t1 ++ t2 ++ t3) := by
      rw [ht3, ht2, ht1]
      simp [List.append_assoc]
    split_ifs with h1 h2 h3
    · exact ⟨t1 ++ t2, by simp only []; exact heq2, hmem2⟩
    · exact ⟨t1 ++ t2 ++ t3, by simp only []; exact heq3, hmem3⟩
    · exact ⟨t1 ++ t2 ++ t3, by simp only []; exact heq3, hmem3⟩
    · exact ⟨t1 ++ t2, by simp only []; exact heq2, hmem2⟩

lemma scan_rows_trace (p : Params) (env : Env) :
    ∀ (n i : Nat) (st : ScanState),
      ∃ t, ((scan_rows p env n i st).1).trace = st.trace ++ t ∧
        ∀ c ∈ t, c = "adc read" ∨ (∃ r, c = "x" ++ r) ∨ ∃ r, c = "y" ++ r := by
  intro n
  induction n with
  | zero => intro i st; exact ⟨[], by simp [scan_rows], by simp⟩
  | succ n ih =>
    intro i st
    obtain ⟨t1, ht1, hs1⟩ := scan_row_trace p env i st
    rcases hr : scan_row p env i st with ⟨st1, o⟩
    rw [hr] at ht1
    simp only [] at ht1
    cases o with
    | some o =>
      refine ⟨t1, ?_, hs1⟩
      simp only [scan_rows]
      rw [hr]
      exact ht1
    | none =>
      obtain ⟨t2, ht2, hs2⟩ := ih (i + 1) st1
      refine ⟨t1 ++ t2, ?_, ?_⟩
      · simp only [scan_rows]
        rw [hr]
        simp only []
        rw [ht2, ht1, List.append_assoc]
      · intro c hc2
        rcases List.mem_append.mp hc2 with h | h
        · exact hs1 c h
        · exact hs2 c h

lemma run_prep_outcome (p : Params) (env : Env) (st : ScanState) (o : Outcome)
    (h : (run_prep p env st).2 = some o) :
    o = Outcome.configFailed ∨ o = Outcome.homingFailed ∨ o = Outcome.adcOnFailed := by
  unfold run_prep at h
  simp only [] at h
  split_ifs at h <;> simp only [] at h <;> simp_all

lemma run_prep_adc_on (p : Params) (env : Env) (st : ScanState)
    (h : (run_prep p env st).2 = none) :
    "adc on" ∈ ((run_prep p env st).1).trace := by
  unfold run_prep at h ⊢
  simp only [] at h ⊢
  split_ifs at h ⊢ <;> simp only [] at h ⊢ <;>
    simp_all [wait_for_ack, send_command]

set_option maxHeartbeats 2000000 in
lemma run_prep_trace_mem (p : Params) (env : Env) (st : ScanState) (c : String)
    (hc : c ∈ ((run_prep p env st).1).trace) :
    c ∈ st.trace ∨ c = "set speed=" ++ toString p.speed
      ∨ c = "set tau=" ++ toString p.delayMs
      ∨ (∃ r, c = "x" ++ r) ∨ (∃ r, c = "y" ++ r) ∨ c = "adc on" := by
  have hx : ∀ (S : ScanState) (d : Int),
      c ∈ ((move_axis env S "x" d).2).trace → c ∈ S.trace ∨ ∃ r, c = "x" ++ r :=
    fun S d h => move_axis_trace_mem env S "x" d c h
  have hy : ∀ (S : ScanState) (d : Int),
      c ∈ ((move_axis env S "y" d).2).trace → c ∈ S.trace ∨ ∃ r, c = "y" ++ r :=
    fun S d h => move_axis_trace_mem env S "y" d c h
  unfold run_prep at hc
  simp only [] at hc
  split_ifs at hc <;> simp only [wait_for_ack, send_command] at hc
  · simp only [List.mem_append, List.mem_singleton] at hc
    tauto
  · simp only [List.mem_append, List.mem_singleton] at hc
    tauto
  · rcases hx _ _ hc with hc | hc
    · simp only [List.mem_append, List.mem_singleton] at hc
      tauto
    · tauto
  · rcases hy _ _ hc with hc | hc
    · rcases hx _ _ hc with hc | hc
      · simp only [List.mem_append, List.mem_singleton] at hc
        tauto
      · tauto
    · tauto
  · rcases hx _ _ hc with hc | hc
    · rcases hy _ _ hc with hc | hc
      · rcases hx _ _ hc with hc | hc
        · simp only [List.mem_append, List.mem_singleton] at hc
          tauto
        · tauto
      · tauto
    · tauto
  · rcases hy _ _ hc with hc | hc
    · rcases hx _ _ hc with hc | hc
      · rcases hy _ _ hc with hc | hc
        · rcases hx _ _ hc with hc | hc
          · simp only [List.mem_append, List.mem_singleton] at hc
            tauto
          · tauto
        · tauto
      · tauto
    · tauto
  · rw [List.mem_append] at hc
    rcases hc with hc | hc
    · rcases hy _ _ hc with hc | hc
      · rcases hx _ _ hc with hc | hc
        · rcases hy _ _ hc with hc | hc
          · rcases hx _ _ hc with hc | hc
            · simp only [List.mem_append, List.mem_singleton] at hc
              tauto
            · tauto
          · tauto
        · tauto
      · tauto
    · rw [List.mem_singleton] at hc
      tauto
  · rw [List.mem_append] at hc
    rcases hc with hc | hc
    · rcases hy _ _ hc with hc | hc
      · rcases hx _ _ hc with hc | hc
        · rcases hy _ _ hc with hc | hc
          · rcases hx _ _ hc with hc | hc
            · simp only [List.mem_append, List.mem_singleton] at hc
              tauto
            · tauto
          · tauto
        · tauto
      · tauto
    · rw [List.mem_singleton] at hc
      tauto

/-- C10: a fresh run (empty trace) that ends early during scanning — because
the abort flag was observed or a mid-scan `move_axis` failed its
acknowledgement — returns without ever sending `adc off` (the device is left
in sampling mode: `adc on` was sent, `adc off` never), and hence without the
return-to-center sequence, which in the source only runs after `adc off`;
the returned state is the state at the point of failure. -/
theorem C10_early_end (p : Params) (env : Env) (st : ScanState)
    (hempty : st.trace = [])
    (h : (run_scan p env st).2 = Outcome.aborted ∨
         (run_scan p env st).2 = Outcome.scanMoveFailed) :
    "adc on" ∈ (run_scan p env st).1.trace ∧
    "adc off" ∉ (run_scan p env st).1.trace := by
  unfold run_scan at h ⊢
  split_ifs at h ⊢ with h1 h2
  · simp at h
  · simp at h
  · try simp only [] at h ⊢
    rcases hpr : run_prep p env st with ⟨st1, o1⟩
    rw [hpr] at h
    try simp only [] at h ⊢
    cases o1 with
    | some o =>
      try simp only [] at h
      have ho := run_prep_outcome p env st o (by rw [hpr])
      rcases h with h | h <;> rcases ho with ho | ho | ho <;> simp_all
    | none =>
      try simp only [] at h ⊢
      rcases hsc : scan_rows p env (n_steps p).toNat 0 st1 with ⟨st2, o2⟩
      rw [hsc] at h
      try simp only [] at h ⊢
      cases o2 with
      | none =>
        try simp only [] at h
        rcases h with h | h <;> simp at h
      | some o2 =>
        try simp only [] at h ⊢
        have h0 := run_prep_adc_on p env st (by rw [hpr])
        rw [hpr] at h0
        try simp only [] at h0
        obtain ⟨t, ht, hs⟩ := scan_rows_trace p env (n_steps p).toNat 0 st1
        rw [hsc] at ht
        try simp only [] at ht
        constructor
        · rw [ht]
          exact List.mem_append.mpr (Or.inl h0)
        · rw [ht]
          intro hmem
          rcases List.mem_append.mp hmem with hmem | hmem
          · have hcl := run_prep_trace_mem p env st "adc off"
              (by rw [hpr]; exact hmem)
            rcases hcl with hin | hsp | hta | ⟨r, hr⟩ | ⟨r, hr⟩ | hao
            · rw [hempty] at hin
              exact absurd hin (List.not_mem_nil _)
            · exact absurd hsp.symm (speed_ne_adc_off _)
            · exact absurd hta.symm (tau_ne_adc_off _)
            · exact absurd hr.symm (x_move_ne_adc_off r)
            · exact absurd hr.symm (y_move_ne_adc_off r)
            · exact absurd hao (by decide)
          · rcases hs _ hmem with hr | ⟨r, hr⟩ | ⟨r, hr⟩
            · exact absurd hr (by decide)
            · exact absurd hr.symm (x_move_ne_adc_off r)
            · exact absurd hr.symm (y_move_ne_adc_off r)

/-- Witness for C10 at a concrete input: the abort flag is set from the
start, every acknowledgement succeeds. -/
theorem C10_early_end_witness :
    "adc on" ∈ (run_scan p_ext1 env_abort st_55).1.trace ∧
    "adc off" ∉ (run_scan p_ext1 env_abort st_55).1.trace :=
  C10_early_end p_ext1 env_abort st_55 rfl (Or.inl rfl)

/-- C9: for each axis of the stage, `move_axis(axis, 0)` sends no command,
changes no state and returns success. -/
theorem C9_zero_move (env : Env) (st : ScanState) (axis : String)
    (h : axis = "x" ∨ axis = "y") :
    move_axis env st axis 0 = (true, st) := by
  rcases h with h | h <;> subst h <;> simp [move_axis]

/-- Witness for C9 at a concrete input. -/
theorem C9_zero_move_witness : move_axis env_ok st_55 "x" 0 = (true, st_55) :=
  C9_zero_move env_ok st_55 "x" (Or.inl rfl)

/-- C1: for every sequence of `move_axis` calls (any axes, any deltas, any
pattern of acknowledgement outcomes), the stored position equals the initial
position plus the per-axis sum of the deltas of exactly the successful calls;
a failed call contributes zero. -/
theorem C1_dead_reckoning (env : Env) (st : ScanState)
    (calls : List (String × Int)) :
    (run_moves env st calls).xPos
        = st.xPos + acked_sum "x" calls (move_results env st calls) ∧
    (run_moves env st calls).yPos
        = st.yPos + acked_sum "y" calls (move_results env st calls) := by
  induction calls generalizing st with
  | nil => simp [run_moves, move_results, acked_sum]
  | cons c rest ih =>
    obtain ⟨a, d⟩ := c
    have hx := move_axis_xPos env st a d
    have hy := move_axis_yPos env st a d
    have h2 := ih (move_axis env st a d).2
    simp only [run_moves, move_results, acked_sum]
    constructor
    · rw [h2.1, hx]; ring
    · rw [h2.2, hy]; ring

lemma read_start_succ (e : LineEnv) (entry : Int) (n : Nat) :
    read_start e entry (n + 1) = read_start e entry n + ((e.reads n).1 + 1) := rfl

lemma read_start_mono (e : LineEnv) (entry : Int) {a b : Nat} (hab : a ≤ b) :
    read_start e entry a ≤ read_start e entry b := by
  induction b with
  | zero =>
    have ha : a = 0 := Nat.le_zero.mp hab
    subst ha
    exact le_refl _
  | succ b ih =>
    rcases eq_or_lt_of_le hab with rfl | hlt
    · exact le_refl _
    · have hb : a ≤ b := Nat.lt_succ_iff.mp hlt
      have h2 := ih hb
      have h3 := read_start_succ e entry b
      omega

lemma readLineLoop_some_iff (e : LineEnv) (entry D : Int) (s : String) :
    ∀ (fuel k : Nat), (D - read_start e entry k).toNat ≤ fuel →
      (readLineLoop e D fuel k (read_start e entry k) = some s ↔
        ∃ n, k ≤ n ∧ read_start e entry n < D ∧ pyStrip (e.reads n).2 = s ∧
          s ≠ "" ∧ ∀ m, k ≤ m → m < n → pyStrip (e.reads m).2 = "") := by
  intro fuel
  induction fuel with
  | zero =>
    intro k hk
    simp only [readLineLoop]
    constructor
    · intro hcontra
      exact absurd hcontra (by simp)
    · rintro ⟨n, hkn, hnD, _, _, _⟩
      have hm := read_start_mono e entry hkn
      omega
  | succ fuel ih =>
    intro k hk
    by_cases hD : read_start e entry k < D
    · rw [readLineLoop, if_pos hD]
      by_cases hblank : pyStrip (e.reads k).2 = ""
      · rw [if_pos hblank]
        have hstep : read_start e entry k + ((e.reads k).1 + 1)
            = read_start e entry (k + 1) := rfl
        rw [hstep]
        have hmeas : (D - read_start e entry (k + 1)).toNat ≤ fuel := by
          have h3 := read_start_succ e entry k
          omega
        rw [ih (k + 1) hmeas]
        constructor
        · rintro ⟨n, hkn, hnD, htrim, hs, hall⟩
          refine ⟨n, by omega, hnD, htrim, hs, ?_⟩
          intro m hm1 hm2
          rcases eq_or_lt_of_le hm1 with rfl | hm3
          · exact hblank
          · exact hall m (by omega) hm2
        · rintro ⟨n, hkn, hnD, htrim, hs, hall⟩
          have hnk : n ≠ k := by
            intro he
            subst he
            exact hs (htrim ▸ hblank)
          exact ⟨n, by omega, hnD, htrim, hs, fun m hm1 hm2 => hall m (by omega) hm2⟩
      · rw [if_neg hblank]
        constructor
        · intro hsome
          have heq : pyStrip (e.reads k).2 = s := Option.some.inj hsome
          refine ⟨k, le_refl k, hD, heq, heq ▸ hblank, ?_⟩
          intro m hm1 hm2
          omega
        · rintro ⟨n, hkn, hnD, htrim, hs, hall⟩
          have hnk : n = k := by
            by_contra hne
            have hlt : k < n := lt_of_le_of_ne hkn (Ne.symm hne)
            exact hblank (hall k (le_refl k) hlt)
          subst hnk
          rw [htrim]
    · rw [readLineLoop, if_neg hD]
      constructor
      · intro hcontra
        exact absurd hcontra (by simp)
      · rintro ⟨n, hkn, hnD, _, _, _⟩
        have hm := read_start_mono e entry hkn
        omega

lemma readLineLoop_none_iff (e : LineEnv) (entry D : Int) :
    ∀ (fuel k : Nat), (D - read_start e entry k).toNat ≤ fuel →
      (readLineLoop e D fuel k (read_start e entry k) = none ↔
        ∀ n, k ≤ n → read_start e entry n < D → pyStrip (e.reads n).2 = "") := by
  intro fuel
  induction fuel with
  | zero =>
    intro k hk
    constructor
    · intro _ n hkn hnD
      have hm := read_start_mono e entry hkn
      omega
    · intro _
      simp [readLineLoop]
  | succ fuel ih =>
    intro k hk
    by_cases hD : read_start e entry k < D
    · rw [readLineLoop, if_pos hD]
      by_cases hblank : pyStrip (e.reads k).2 = ""
      · rw [if_pos hblank]
        have hstep : read_start e entry k + ((e.reads k).1 + 1)
            = read_start e entry (k + 1) := rfl
        rw [hstep]
        have hmeas : (D - read_start e entry (k + 1)).toNat ≤ fuel := by
          have h3 := read_start_succ e entry k
          omega
        rw [ih (k + 1) hmeas]
        constructor
        · intro hall n hkn hnD
          rcases eq_or_lt_of_le hkn with rfl | hlt
          · exact hblank
          · exact hall n (by omega) hnD
        · intro hall n hkn hnD
          exact hall n (by omega) hnD
      · rw [if_neg hblank]
        constructor
        · intro hcontra
          exact absurd hcontra (by simp)
        · intro hall
          exact absurd (hall k (le_refl k) hD) hblank
    · rw [readLineLoop, if_neg hD]
      constructor
      · intro _ n hkn hnD
        have hm := read_start_mono e entry hkn
        omega
      · intro _
        rfl

/-- C8 counterexample: with `timeout = 10` ticks on the fixture stream, the
read that produces "OK" begins at tick 7 (before the deadline) but its line
only arrives at tick 12 (after the deadline); `read_line` returns "OK",
whereas the claim — the first non-empty line that ARRIVES before the
deadline, else None — yields None, since no non-blank line arrives before
tick 10. -/
theorem C8_read_line_cex :
    read_line line_env0 (some 10) 1 0 = some "OK" ∧
    spec_read_line line_env0 10 0 20 0 = none := by
  constructor <;> rfl

/-- C8 amended: `read_line` returns (stripped) the first non-blank line among
the reads BEGUN before the deadline — a read begun before the deadline may
complete after it and its line is still returned — and returns None exactly
when every read begun before the deadline yields an empty or blank line.
Empty reads and blank lines never end the wait early, and the deadline is
computed once at entry from the effective timeout (a timeout of None or 0
falls back to the connection default, from Python's `timeout or
self.timeout`). -/
theorem C8_read_line_characterization (e : LineEnv) (timeout : Option Int)
    (selfTimeout entry : Int) :
    (∀ s : String,
      read_line e timeout selfTimeout entry = some s ↔
        ∃ n, read_start e entry n < entry + effective_timeout timeout selfTimeout ∧
          pyStrip (e.reads n).2 = s ∧ s ≠ "" ∧
          ∀ m < n, pyStrip (e.reads m).2 = "") ∧
    (read_line e timeout selfTimeout entry = none ↔
      ∀ n, read_start e entry n < entry + effective_timeout timeout selfTimeout →
        pyStrip (e.reads n).2 = "") := by
  have hzero : read_start e entry 0 = entry := rfl
  have hmeas : ((entry + effective_timeout timeout selfTimeout)
      - read_start e entry 0).toNat ≤ (effective_timeout timeout selfTimeout).toNat := by
    rw [hzero]
    omega
  constructor
  · intro s
    have h := readLineLoop_some_iff e entry
      (entry + effective_timeout timeout selfTimeout) s
      (effective_timeout timeout selfTimeout).toNat 0 hmeas
    rw [hzero] at h
    unfold read_line
    rw [h]
    constructor
    · rintro ⟨n, _, hnD, htrim, hs, hall⟩
      exact ⟨n, hnD, htrim, hs, fun m hm => hall m (Nat.zero_le m) hm⟩
    · rintro ⟨n, hnD, htrim, hs, hall⟩
      exact ⟨n, Nat.zero_le n, hnD, htrim, hs, fun m _ hm => hall m hm⟩
  · have h := readLineLoop_none_iff e entry
      (entry + effective_timeout timeout selfTimeout)
      (effective_timeout timeout selfTimeout).toNat 0 hmeas
    rw [hzero] at h
    unfold read_line
    rw [h]
    constructor
    · intro hall n hnD
      exact hall n (Nat.zero_le n) hnD
    · intro hall n _ hnD
      exact hall n hnD

/-- Witness for C8 (amended) at a concrete input: on the fixture stream with
`timeout = 20` the first non-blank read is number 2 and yields "OK". -/
theorem C8_read_line_witness : read_line line_env0 (some 20) 1 0 = some "OK" := by
  rw [(C8_read_line_characterization line_env0 (some 20) 1 0).1 "OK"]
  refine ⟨2, by decide, by decide, by decide, ?_⟩
  intro m hm
  interval_cases m <;> decide

end Raspe
